import Mathlib

/-!
Verification of the multi-model prompt-engineering platform
(`improved_ultimate_4model_setup.py`, class `ImprovedUltimate4ModelPlatform`).

Python strings are modelled as lists of characters (`Str`), so slicing,
length and prefix tests are the corresponding list operations.  Network and
SDK effects are modelled by oracle functions passed to the embedded
operations: a probe oracle for the Google key/model trial calls, call
oracles returning either a normal value or a raised exception for the SDK
clients, and an HTTP oracle for the Llama endpoint.
-/

namespace MultiModel

/-- A Python string, modelled as its list of characters. -/
abbrev Str := List Char

/- String constants appearing in the source. -/

def sGoogle : Str := "google".toList

def sOpenaiName : Str := "openai".toList

def sClaudeName : Str := "claude".toList

def sSystem : Str := "system".toList

def sUser : Str := "user".toList

def placeholderKey : Str := "your-openai-key-here".toList

def errLlamaNA : Str := "❌ Llama not available".toList

def errLlamaErr : Str := "❌ Llama Error: ".toList

def errLlamaAPI : Str := "❌ Llama API Error: ".toList

def errLlamaFormat : Str := "❌ Unexpected Llama response format".toList

def errGoogleNA : Str := "❌ Google not available".toList

def errGoogleErr : Str := "❌ Google Error: ".toList

def errOpenaiNA : Str := "❌ OpenAI not available".toList

def errOpenaiErr : Str := "❌ OpenAI Error: ".toList

def errClaudeNA : Str := "❌ Claude not available".toList

def errClaudeErr : Str := "❌ Claude Error: ".toList

def errClaudeOverloaded : Str :=
  "❌ Claude temporarily overloaded - try again in a moment".toList

def failureMarker : Str := "❌".toList

def sOverloaded : Str := "overloaded".toList

def sInstructions : Str := "Instructions: ".toList

def sUserDelim : Str := "\n\nUser: ".toList

def llamaUrl : Str := "https://api.llama.com/v1/chat/completions".toList

def llamaModelName : Str := "Llama-4-Maverick-17B-128E-Instruct-FP8".toList

/-- Rendering of the KeyError raised by `['message']['content']` when the
    `content` key is absent. -/
def sContentKey : Str := "'content'".toList

def mLatest : Str := "gemini-1.5-pro-latest".toList

def mPro15 : Str := "gemini-1.5-pro".toList

def mPro : Str := "gemini-pro".toList

def mPro10 : Str := "gemini-1.0-pro".toList

def labelOpenai : Str := "🧠 OpenAI GPT-4".toList

def labelClaude : Str := "🎭 Claude Sonnet".toList

def labelGoogle : Str := "🔍 Google Gemini".toList

def labelLlama : Str := "🦙 Meta Llama".toList

/-- Python truthiness of an optional string: `None` and `""` are falsy. -/
def truthyOpt : Option Str → Bool
  | none => false
  | some s => !s.isEmpty

/-- `__init__` lines 73-78: the three Google environment slots are collected
    and the falsy entries (`None`, `""`) are dropped by
    `[k for k in self.google_keys if k]`, preserving order.  Nothing is
    deduplicated and no placeholder comparison happens here. -/
def googleKeysInit : List (Option Str) → List Str
  | [] => []
  | none :: rest => googleKeysInit rest
  | some s :: rest =>
      if s.isEmpty then googleKeysInit rest else s :: googleKeysInit rest

/-- The mutable fields of `ImprovedUltimate4ModelPlatform` that the verified
    operations read or write.  `clients` models the keys of the `self.clients`
    dict (the provider registry). -/
structure PlatformState where
  openai_key : Option Str
  llama_key : Option Str
  google_keys : List Str
  claude_key : Option Str
  active_google_key : Option Str
  active_google_model : Option Str
  clients : List Str
deriving DecidableEq

/-- The environment variables read by `__init__` (lines 71-79). -/
structure Env where
  openai_api_key : Option Str
  llama_api_key : Option Str
  google_api_key : Option Str
  google_api_key_backup : Option Str
  google_api_key_backup2 : Option Str
  claude_api_key : Option Str

/-- `__init__` lines 71-84: keys loaded from the environment, the Google list
    filtered of falsy entries, binding fields cleared, no clients yet. -/
def initState (env : Env) : PlatformState :=
  { openai_key := env.openai_api_key
    llama_key := env.llama_api_key
    google_keys := googleKeysInit
      [env.google_api_key, env.google_api_key_backup, env.google_api_key_backup2]
    claude_key := env.claude_api_key
    active_google_key := none
    active_google_model := none
    clients := [] }

/-- The fixed, preference-ordered Gemini model identifiers
    (`model_names_to_try`, lines 178-183). -/
def model_names_to_try : List Str := [mLatest, mPro15, mPro, mPro10]

/-- The key-major nested search order of `setup_google_client`:
    all models for a key before any model of the next key. -/
def nestedPairs (keys models : List Str) : List (Str × Str) :=
  keys.flatMap fun k => models.map fun m => (k, m)

/-- Inner loop of `setup_google_client` (lines 187-207) for one key: try each
    model name in order; stop at the first successful probe.  Returns the
    winning model, if any, together with the list of probed pairs. -/
def tryModelsForKey (probe : Str → Str → Bool) (key : Str) :
    List Str → Option Str × List (Str × Str)
  | [] => (none, [])
  | m :: ms =>
    if probe key m then (some m, [(key, m)])
    else
      let r := tryModelsForKey probe key ms
      (r.1, (key, m) :: r.2)

/-- Outer loop of `setup_google_client` (lines 186-207): keys in their list
    order, each exhausted over all model names before the next key. -/
def googleLoop (probe : Str → Str → Bool) :
    List Str → List Str → Option (Str × Str) × List (Str × Str)
  | [], _ => (none, [])
  | k :: ks, models =>
    match tryModelsForKey probe k models with
    | (some m, tr) => (some (k, m), tr)
    | (none, tr) =>
      let r := googleLoop probe ks models
      (r.1, tr ++ r.2)

/-- `setup_google_client` (lines 163-210) as a state transformer.  `probe`
    stands for the whole per-pair try block (`genai.configure`,
    `GenerativeModel`, the minimal `generate_content` test call), `true`
    meaning it ran without an exception; every exception is caught by the
    `except ... continue` and never escapes.  The `genai` import is assumed
    importable, as it is installed at module load.  On the first success the
    binding fields are assigned and `'google'` is added to the client
    registry; otherwise the state is unchanged and `False` is returned.  The
    third component instruments the sequence of probed (key, model) pairs. -/
def setup_google_client (probe : Str → Str → Bool) (st : PlatformState) :
    PlatformState × Bool × List (Str × Str) :=
  if st.google_keys.isEmpty then (st, false, [])
  else
    let r := googleLoop probe st.google_keys model_names_to_try
    match r.1 with
    | some km =>
      ({ st with active_google_key := some km.1, active_google_model := some km.2,
                 clients := st.clients ++ [sGoogle] }, true, r.2)
    | none => (st, false, r.2)

/-- `setup_openai_client` (lines 131-145): refuse a falsy or placeholder key;
    otherwise register the client when the SDK constructor succeeds
    (`ctor_ok` models the try/except around `OpenAI(...)`). -/
def setup_openai_client (ctor_ok : Bool) (st : PlatformState) :
    PlatformState × Bool :=
  match st.openai_key with
  | none => (st, false)
  | some k =>
    if k.isEmpty || k = placeholderKey then (st, false)
    else if ctor_ok then
      ({ st with clients := st.clients ++ [sOpenaiName] }, true)
    else (st, false)

/-- `setup_claude_client` (lines 147-161): refuse a falsy key; otherwise
    register the client when the SDK constructor succeeds. -/
def setup_claude_client (ctor_ok : Bool) (st : PlatformState) :
    PlatformState × Bool :=
  match st.claude_key with
  | none => (st, false)
  | some k =>
    if k.isEmpty then (st, false)
    else if ctor_ok then
      ({ st with clients := st.clients ++ [sClaudeName] }, true)
    else (st, false)

/-- `setup_all_clients` (lines 212-227): OpenAI, Claude, Google in order; the
    Llama branch only prints, registering nothing. -/
def setup_all_clients (openai_ok claude_ok : Bool) (probe : Str → Str → Bool)
    (st : PlatformState) : PlatformState :=
  let st1 := (setup_openai_client openai_ok st).1
  let st2 := (setup_claude_client claude_ok st1).1
  (setup_google_client probe st2).1

/-- Full startup: `__init__` field setup followed by `setup_all_clients`. -/
def platformInit (env : Env) (openai_ok claude_ok : Bool)
    (probe : Str → Str → Bool) : PlatformState :=
  setup_all_clients openai_ok claude_ok probe (initState env)

/-- A role-tagged message, as placed in the JSON message lists. -/
structure Message where
  role : Str
  content : Str
deriving DecidableEq

/-- Outcome of a call into a vendor SDK: a normal return or a raised
    exception carrying its rendered message (`str(e)`). -/
inductive CallOutcome where
  | ok (text : Str)
  | exn (msg : Str)

/-- The `message` object inside a Llama choice; its `content` key may be
    absent (a missing key raises, like the Python dict access). -/
structure LlamaMessage where
  content : Option Str
deriving DecidableEq

/-- One entry of the `choices` list of a decoded Llama reply. -/
structure LlamaChoice where
  message : Option LlamaMessage
  text : Option Str
deriving DecidableEq

/-- A decoded Llama reply body; the `choices` key may be absent. -/
structure LlamaBody where
  choices : Option (List LlamaChoice)
deriving DecidableEq

/-- Outcome of the `requests.post` call: a raised exception (connection
    failure, timeout), or a response with a status code and a JSON-decoding
    result (`Except.error` models `response.json()` raising). -/
inductive HttpOutcome where
  | exn (msg : Str)
  | resp (status : Nat) (body : Except Str LlamaBody)

/-- The message list built by `get_llama_response`/`get_openai_response`
    (lines 325-328): a system message is prepended only when the system
    prompt is truthy. -/
def sysUserMessages (prompt : Str) (system_prompt : Option Str) : List Message :=
  match system_prompt with
  | some sp =>
    if sp.isEmpty then [⟨sUser, prompt⟩] else [⟨sSystem, sp⟩, ⟨sUser, prompt⟩]
  | none => [⟨sUser, prompt⟩]

/-- The POST request built by `get_llama_response` (lines 319-337).  The
    fixed sampling temperature 0.7 is elided: it is a floating-point
    constant no verified claim refers to. -/
structure LlamaRequest where
  url : Str
  bearer : Str
  model : Str
  messages : List Message
  max_tokens : Nat

def llamaRequestOf (key prompt : Str) (system_prompt : Option Str) :
    LlamaRequest :=
  ⟨llamaUrl, key, llamaModelName, sysUserMessages prompt system_prompt, 400⟩

/-- The response-shape handling of `get_llama_response` on a decoded 200
    body (lines 341-347).  `Except.error` models the KeyError raised when
    `choices[0]['message']` lacks `'content'`; it is converted to an error
    text by the enclosing handler. -/
def parseLlamaBody (result : LlamaBody) : Except Str Str :=
  match result.choices with
  | some (c :: _) =>
    match c.message with
    | some msg =>
      match msg.content with
      | some s => Except.ok s
      | none => Except.error sContentKey
    | none =>
      match c.text with
      | some s => Except.ok s
      | none => Except.ok errLlamaFormat
  | some [] => Except.ok errLlamaFormat
  | none => Except.ok errLlamaFormat

/-- `get_llama_response` (lines 312-352).  The `http` oracle models the
    `requests.post` call on the request the function builds; every fault is
    converted to an error-tagged text, never re-raised. -/
def get_llama_response (llama_key : Option Str)
    (http : LlamaRequest → HttpOutcome)
    (prompt : Str) (system_prompt : Option Str) : Str :=
  match llama_key with
  | none => errLlamaNA
  | some key =>
    if key.isEmpty then errLlamaNA
    else
      match http (llamaRequestOf key prompt system_prompt) with
      | HttpOutcome.exn e => errLlamaErr ++ e.take 100
      | HttpOutcome.resp status body =>
        if status = 200 then
          match body with
          | Except.error e => errLlamaErr ++ e.take 100
          | Except.ok result =>
            match parseLlamaBody result with
            | Except.ok s => s
            | Except.error e => errLlamaErr ++ e.take 100
        else errLlamaAPI ++ (toString status).toList

/-- The combined prompt of `get_google_response` (lines 362-364): the system
    prompt is prefixed, with the Instructions/User delimiters, only when it
    is truthy. -/
def googleFullPrompt (prompt : Str) (system_prompt : Option Str) : Str :=
  match system_prompt with
  | some sp =>
    if sp.isEmpty then prompt
    else sInstructions ++ sp ++ sUserDelim ++ prompt
  | none => prompt

/-- `get_google_response` (lines 354-375).  `gen` models
    `generate_content` followed by the `.text` access on the resolved model
    handle; an exception anywhere inside the try block is caught. -/
def get_google_response (st : PlatformState) (gen : Str → CallOutcome)
    (prompt : Str) (system_prompt : Option Str) : Str :=
  if sGoogle ∈ st.clients then
    match gen (googleFullPrompt prompt system_prompt) with
    | CallOutcome.ok t => t
    | CallOutcome.exn e => errGoogleErr ++ e.take 100
  else errGoogleNA

/-- `get_openai_response` (lines 260-280); the fixed model argument default
    `"gpt-4"`, token budget and temperature are request shaping the `call`
    oracle absorbs. -/
def get_openai_response (st : PlatformState)
    (call : List Message → CallOutcome)
    (prompt : Str) (system_prompt : Option Str) : Str :=
  if sOpenaiName ∈ st.clients then
    match call (sysUserMessages prompt system_prompt) with
    | CallOutcome.ok t => t
    | CallOutcome.exn e => errOpenaiErr ++ e.take 100
  else errOpenaiNA

/-- Case-insensitive substring test used for `"overloaded" in
    error_msg.lower()`. -/
def containsSubstr (needle : Str) : Str → Bool
  | [] => needle.isEmpty
  | c :: rest => needle.isPrefixOf (c :: rest) || containsSubstr needle rest

/-- The optional `system` kwarg passed by `get_claude_response` (lines
    299-300): set only when the system prompt is truthy. -/
def claudeSystemOf (system_prompt : Option Str) : Option Str :=
  match system_prompt with
  | some sp => if sp.isEmpty then none else some sp
  | none => none

/-- `get_claude_response` (lines 282-310); the `call` oracle takes the
    message list and the optional system kwarg. -/
def get_claude_response (st : PlatformState)
    (call : List Message → Option Str → CallOutcome)
    (prompt : Str) (system_prompt : Option Str) : Str :=
  if sClaudeName ∈ st.clients then
    match call [⟨sUser, prompt⟩] (claudeSystemOf system_prompt) with
    | CallOutcome.ok t => t
    | CallOutcome.exn e =>
      if containsSubstr sOverloaded (e.map Char.toLower) then errClaudeOverloaded
      else errClaudeErr ++ e.take 100
  else errClaudeNA

/-- `compare_all_models_enhanced` (lines 427-454): the four respond methods
    are invoked unconditionally, sequentially, in the fixed display order of
    the `models` dict, and every label is recorded in `results`. -/
def compare_all_models_enhanced (st : PlatformState)
    (openaiCall : List Message → CallOutcome)
    (claudeCall : List Message → Option Str → CallOutcome)
    (googleGen : Str → CallOutcome)
    (llamaHttp : LlamaRequest → HttpOutcome)
    (prompt : Str) (system_prompt : Option Str) : List (Str × Str) :=
  [(labelOpenai, get_openai_response st openaiCall prompt system_prompt),
   (labelClaude, get_claude_response st claudeCall prompt system_prompt),
   (labelGoogle, get_google_response st googleGen prompt system_prompt),
   (labelLlama, get_llama_response st.llama_key llamaHttp prompt system_prompt)]

/-- An operation invoked after startup: one of the respond methods or the
    comparison runner, with its oracles and arguments. -/
inductive Op where
  | openaiR (call : List Message → CallOutcome) (prompt : Str) (sp : Option Str)
  | claudeR (call : List Message → Option Str → CallOutcome) (prompt : Str)
      (sp : Option Str)
  | googleR (gen : Str → CallOutcome) (prompt : Str) (sp : Option Str)
  | llamaR (http : LlamaRequest → HttpOutcome) (prompt : Str) (sp : Option Str)
  | compareR (oc : List Message → CallOutcome)
      (cc : List Message → Option Str → CallOutcome)
      (gc : Str → CallOutcome) (lc : LlamaRequest → HttpOutcome)
      (prompt : Str) (sp : Option Str)

/-- What an operation returns: a response text or the comparison mapping. -/
inductive OpOutput where
  | text (t : Str)
  | table (m : List (Str × Str))

/-- One post-startup operation.  None of the corresponding Python methods
    assigns to any field of the platform object, so the state component of
    the result is the input state. -/
def runOp (st : PlatformState) : Op → PlatformState × OpOutput
  | Op.openaiR call prompt sp =>
    (st, OpOutput.text (get_openai_response st call prompt sp))
  | Op.claudeR call prompt sp =>
    (st, OpOutput.text (get_claude_response st call prompt sp))
  | Op.googleR gen prompt sp =>
    (st, OpOutput.text (get_google_response st gen prompt sp))
  | Op.llamaR http prompt sp =>
    (st, OpOutput.text (get_llama_response st.llama_key http prompt sp))
  | Op.compareR oc cc gc lc prompt sp =>
    (st, OpOutput.table (compare_all_models_enhanced st oc cc gc lc prompt sp))

/-- The state after a sequence of post-startup operations. -/
def runOps (st : PlatformState) : List Op → PlatformState
  | [] => st
  | o :: os => runOps (runOp st o).1 os

/-- The pairs attempted when a list is scanned up to and including its first
    success: the order in which a fail-fast linear search probes. -/
def probeTrace (p : α → Bool) : List α → List α
  | [] => []
  | a :: as => if p a then [a] else a :: probeTrace p as

/- Concrete fixtures used by the witness and counterexample theorems. -/

/-- A probe on which every (key, model) pair fails. -/
def probeNone : Str → Str → Bool := fun _ _ => false

/-- A probe that succeeds exactly on the second-preferred model name. -/
def probeSecondModel : Str → Str → Bool := fun _ m => m == mPro15

def kOne : Str := "k1".toList

def kAbc : Str := "abc".toList

def sLk : Str := "lk".toList

def sBoom : Str := "boom".toList

def sT : Str := "t".toList

def sP : Str := "p".toList

def sHi : Str := "hi".toList

/-- Environment slots holding one valid key, one absent and one empty one. -/
def rawEx : List (Option Str) := [some kOne, none, some []]

/-- A freshly constructed platform whose Google slots are `rawEx`. -/
def stEx : PlatformState :=
  { openai_key := none
    llama_key := some sLk
    google_keys := googleKeysInit rawEx
    claude_key := none
    active_google_key := none
    active_google_model := none
    clients := [] }

/-- A platform on which OpenAI, Claude and Llama are available but Google
    resolution failed. -/
def stNoGoogle : PlatformState :=
  { openai_key := some kAbc
    llama_key := some sLk
    google_keys := []
    claude_key := some kAbc
    active_google_key := none
    active_google_model := none
    clients := [sOpenaiName, sClaudeName] }

/-- An HTTP oracle that always raises. -/
def httpExn : LlamaRequest → HttpOutcome := fun _ => HttpOutcome.exn sBoom

/-- An HTTP oracle that returns status 200 with the given decoded body. -/
def httpOk (b : LlamaBody) : LlamaRequest → HttpOutcome :=
  fun _ => HttpOutcome.resp 200 (Except.ok b)

/-- SDK oracles that always succeed with a fixed text. -/
def ocOk : List Message → CallOutcome := fun _ => CallOutcome.ok sT

def ccOk : List Message → Option Str → CallOutcome := fun _ _ => CallOutcome.ok sT

def genOk : Str → CallOutcome := fun _ => CallOutcome.ok sT

/-- A Gemini oracle that echoes the text it was sent. -/
def genEcho : Str → CallOutcome := fun t => CallOutcome.ok t

/-- A decoded Llama body in the message-content shape. -/
def llamaBodyHi : LlamaBody := ⟨some [⟨some ⟨some sHi⟩, none⟩]⟩

/-- Environment slots holding the same key twice plus an empty one. -/
def rawDup : List (Option Str) := [some kAbc, some kAbc, some []]

/-- A platform on which only the Google provider is available. -/
def stGoogleOnly : PlatformState :=
  { openai_key := none
    llama_key := none
    google_keys := [kOne]
    claude_key := none
    active_google_key := some kOne
    active_google_model := some mPro15
    clients := [sGoogle] }

/-- A single environment slot holding the known placeholder value. -/
def rawPlaceholder : List (Option Str) := [some placeholderKey]

/-- A freshly constructed platform whose only Google slot holds the
    placeholder value. -/
def stPlaceholder : PlatformState :=
  { openai_key := none
    llama_key := none
    google_keys := googleKeysInit rawPlaceholder
    claude_key := none
    active_google_key := none
    active_google_model := none
    clients := [] }

/-- The environment used by the C8 witness. -/
def envEx : Env :=
  { openai_api_key := some kAbc
    llama_api_key := some sLk
    google_api_key := some kOne
    google_api_key_backup := none
    google_api_key_backup2 := some []
    claude_api_key := none }

theorem probeTrace_prefixOf (p : α → Bool) (l : List α) : probeTrace p l <+: l := by
  induction l with
  | nil => exact ⟨[], rfl⟩
  | cons a as ih =>
    by_cases h : p a
    · exact ⟨as, by simp [probeTrace, h]⟩
    · obtain ⟨t, ht⟩ := ih
      exact ⟨t, by simp [probeTrace, h, ht]⟩

theorem probeTrace_all_false (p : α → Bool) (l : List α)
    (h : ∀ a ∈ l, p a = false) : probeTrace p l = l := by
  induction l with
  | nil => rfl
  | cons a as ih =>
    simp only [probeTrace, h a (List.mem_cons_self a as)]
    simp only [Bool.false_eq_true, if_false, List.cons.injEq, true_and]
    exact ih fun x hx => h x (List.mem_cons_of_mem a hx)

theorem probeTrace_append_false (p : α → Bool) (xs ys : List α)
    (h : ∀ a ∈ xs, p a = false) :
    probeTrace p (xs ++ ys) = xs ++ probeTrace p ys := by
  induction xs with
  | nil => rfl
  | cons a as ih =>
    simp only [List.cons_append, probeTrace, h a (List.mem_cons_self a as)]
    simp only [Bool.false_eq_true, if_false, List.cons.injEq, true_and]
    exact ih fun x hx => h x (List.mem_cons_of_mem a hx)

theorem probeTrace_append_true (p : α → Bool) (xs ys : List α)
    (h : ∃ a ∈ xs, p a = true) :
    probeTrace p (xs ++ ys) = probeTrace p xs := by
  induction xs with
  | nil => simp at h
  | cons a as ih =>
    by_cases ha : p a
    · simp [probeTrace, ha]
    · obtain ⟨b, hb, hpb⟩ := h
      rcases List.mem_cons.mp hb with rfl | hb'
      · exact absurd hpb (by simpa using ha)
      · simp only [List.cons_append, probeTrace, ha]
        simp only [Bool.false_eq_true, if_false, List.cons.injEq, true_and]
        exact ih ⟨b, hb', hpb⟩

theorem tryModelsForKey_trace (probe : Str → Str → Bool) (key : Str)
    (models : List Str) :
    (tryModelsForKey probe key models).2
      = probeTrace (fun q => probe q.1 q.2) (models.map fun m => (key, m)) := by
  induction models with
  | nil => rfl
  | cons m ms ih =>
    by_cases h : probe key m
    · simp [tryModelsForKey, probeTrace, h]
    · simp [tryModelsForKey, probeTrace, h, ih]

theorem tryModelsForKey_find (probe : Str → Str → Bool) (key : Str)
    (models : List Str) :
    ((models.map fun m => (key, m)).find? fun q => probe q.1 q.2)
      = ((tryModelsForKey probe key models).1).map fun m => (key, m) := by
  induction models with
  | nil => rfl
  | cons m ms ih =>
    by_cases h : probe key m
    · simp [tryModelsForKey, List.find?, h]
    · simp [tryModelsForKey, List.find?, h, ih]

theorem nestedPairs_nil (models : List Str) : nestedPairs [] models = [] := rfl

theorem nestedPairs_cons (k : Str) (ks models : List Str) :
    nestedPairs (k :: ks) models
      = (models.map fun m => (k, m)) ++ nestedPairs ks models := by
  simp [nestedPairs]

theorem googleLoop_find (probe : Str → Str → Bool) (keys models : List Str) :
    (googleLoop probe keys models).1
      = (nestedPairs keys models).find? fun q => probe q.1 q.2 := by
  induction keys with
  | nil => rfl
  | cons k ks ih =>
    rw [nestedPairs_cons, List.find?_append, ← ih]
    have hfind := tryModelsForKey_find probe k models
    rcases hk : tryModelsForKey probe k models with ⟨mo, tr⟩
    rw [hk] at hfind
    cases mo with
    | none =>
      simp only [Option.map] at hfind
      simp [googleLoop, hk, hfind]
    | some m =>
      simp only [Option.map] at hfind
      simp [googleLoop, hk, hfind]

theorem googleLoop_trace (probe : Str → Str → Bool) (keys models : List Str) :
    (googleLoop probe keys models).2
      = probeTrace (fun q => probe q.1 q.2) (nestedPairs keys models) := by
  induction keys with
  | nil => rfl
  | cons k ks ih =>
    rw [nestedPairs_cons]
    rcases hk : tryModelsForKey probe k models with ⟨mo, tr⟩
    cases mo with
    | none =>
      have hfind := tryModelsForKey_find probe k models
      rw [hk] at hfind
      simp only [Option.map] at hfind
      have hall : ∀ q ∈ (models.map fun m => (k, m)), (fun q => probe q.1 q.2) q = false := by
        intro q hq
        exact Bool.not_eq_true _ ▸ (List.find?_eq_none.mp hfind q hq)
      rw [probeTrace_append_false _ _ _ hall]
      have htr : tr = probeTrace (fun q => probe q.1 q.2) (models.map fun m => (k, m)) := by
        have := tryModelsForKey_trace probe k models
        rw [hk] at this
        exact this
      rw [probeTrace_all_false _ _ hall] at htr
      simp [googleLoop, hk, htr, ih]
    | some m =>
      have hfind := tryModelsForKey_find probe k models
      rw [hk] at hfind
      simp only [Option.map] at hfind
      have hmem : (k, m) ∈ (models.map fun mm => (k, mm)) :=
        List.mem_of_find?_eq_some hfind
      have hp : probe k m = true := by
        have := List.find?_some hfind
        simpa using this
      rw [probeTrace_append_true _ _ _ ⟨(k, m), hmem, hp⟩]
      have htr : tr = probeTrace (fun q => probe q.1 q.2) (models.map fun mm => (k, mm)) := by
        have := tryModelsForKey_trace probe k models
        rw [hk] at this
        exact this
      simp [googleLoop, hk, htr]

/-- The trace of `setup_google_client` is the fail-fast scan of the nested
    search order, whatever the initial state. -/
theorem setup_google_client_trace (probe : Str → Str → Bool)
    (st : PlatformState) :
    (setup_google_client probe st).2.2
      = probeTrace (fun q => probe q.1 q.2)
          (nestedPairs st.google_keys model_names_to_try) := by
  by_cases he : st.google_keys.isEmpty
  · rw [List.isEmpty_iff] at he
    simp [setup_google_client, he, nestedPairs_nil, probeTrace]
  · rw [← googleLoop_trace]
    unfold setup_google_client
    rw [if_neg (by simpa using he)]
    rcases hl : (googleLoop probe st.google_keys model_names_to_try).1 with _ | km
    · simp [hl]
    · simp [hl]

/-- When the loop finds a winning pair, `setup_google_client` records it and
    registers the provider. -/
theorem setup_google_client_of_some (probe : Str → Str → Bool)
    (st : PlatformState) (k m : Str)
    (h : (googleLoop probe st.google_keys model_names_to_try).1 = some (k, m)) :
    setup_google_client probe st
      = ({ st with active_google_key := some k, active_google_model := some m,
                   clients := st.clients ++ [sGoogle] }, true,
         (googleLoop probe st.google_keys model_names_to_try).2) := by
  have hne : st.google_keys.isEmpty = false := by
    rcases hg : st.google_keys with _ | ⟨a, l⟩
    · rw [hg] at h
      simp [googleLoop] at h
    · simp [hg]
  unfold setup_google_client
  rw [if_neg (by simp [hne])]
  simp [h]

/-- When the loop finds nothing (in particular when the key list is empty),
    `setup_google_client` leaves the state unchanged and reports failure. -/
theorem setup_google_client_of_none (probe : Str → Str → Bool)
    (st : PlatformState)
    (h : (googleLoop probe st.google_keys model_names_to_try).1 = none) :
    (setup_google_client probe st).1 = st
      ∧ (setup_google_client probe st).2.1 = false := by
  by_cases he : st.google_keys.isEmpty
  · constructor <;> simp [setup_google_client, he]
  · unfold setup_google_client
    rw [if_neg he]
    constructor <;> simp [h]

/-- `googleKeysInit` keeps exactly the present, non-empty entries. -/
theorem googleKeysInit_mem (raw : List (Option Str)) (s : Str) :
    s ∈ googleKeysInit raw ↔ some s ∈ raw ∧ ¬s.isEmpty := by
  induction raw with
  | nil => simp [googleKeysInit]
  | cons o rest ih =>
    cases o with
    | none => simp [googleKeysInit, ih]
    | some t =>
      by_cases ht : t.isEmpty
      · rw [googleKeysInit, if_pos ht, ih]
        constructor
        · rintro ⟨hmem, hne⟩
          exact ⟨List.mem_cons_of_mem _ hmem, hne⟩
        · rintro ⟨hmem, hne⟩
          rcases List.mem_cons.mp hmem with heq | hmem'
          · obtain rfl : s = t := by simpa using heq
            exact absurd ht hne
          · exact ⟨hmem', hne⟩
      · rw [googleKeysInit, if_neg ht]
        constructor
        · intro hmem
          rcases List.mem_cons.mp hmem with rfl | hmem'
          · exact ⟨List.mem_cons_self _ _, ht⟩
          · obtain ⟨h1, h2⟩ := ih.mp hmem'
            exact ⟨List.mem_cons_of_mem _ h1, h2⟩
        · rintro ⟨hmem, hne⟩
          rcases List.mem_cons.mp hmem with heq | hmem'
          · obtain rfl : s = t := by simpa using heq
            exact List.mem_cons_self _ _
          · exact List.mem_cons_of_mem _ (ih.mpr ⟨hmem', hne⟩)

theorem nestedPairs_fst_mem (keys models : List Str) (q : Str × Str)
    (h : q ∈ nestedPairs keys models) : q.1 ∈ keys := by
  simp only [nestedPairs, List.mem_flatMap, List.mem_map] at h
  obtain ⟨k, hk, m, _, rfl⟩ := h
  exact hk

/-- C1 counterexample: an invalid credential is not always skipped.  A
    credential is invalid when empty, absent, or equal to the known
    placeholder value, but the truthy filter of `__init__` keeps the
    placeholder (it is a non-empty string), so the resolver probes it: with
    the placeholder in the only Google slot, the pair (placeholder, first
    model) appears in the probe trace. -/
theorem c1_counterexample :
    googleKeysInit rawPlaceholder = [placeholderKey]
    ∧ (placeholderKey, mLatest)
        ∈ (setup_google_client probeNone stPlaceholder).2.2 := by
  refine ⟨by decide, by decide⟩

/-- C1 (amended): for every candidate Google credential list and the fixed
    preference-ordered model list, the resolver probes (credential, model)
    pairs exactly in the fail-fast scan of the key-major nested order —
    all models of credential k before any model of credential k+1 — over the
    filtered credential list; the probed sequence is a prefix of that nested
    order, and an absent or empty credential is never probed.  A credential
    equal to the known placeholder value, although invalid, is NOT filtered
    out and is probed like any other (see the counterexample). -/
theorem c1_resolver_probe_order (probe : Str → Str → Bool)
    (raw : List (Option Str)) (st : PlatformState)
    (hkeys : st.google_keys = googleKeysInit raw) :
    (setup_google_client probe st).2.2
      = probeTrace (fun q => probe q.1 q.2)
          (nestedPairs (googleKeysInit raw) model_names_to_try)
    ∧ (setup_google_client probe st).2.2
        <+: nestedPairs (googleKeysInit raw) model_names_to_try
    ∧ ∀ q ∈ (setup_google_client probe st).2.2, some q.1 ∈ raw ∧ ¬q.1.isEmpty := by
  have htr := setup_google_client_trace probe st
  rw [hkeys] at htr
  refine ⟨htr, ?_, ?_⟩
  · rw [htr]
    exact probeTrace_prefixOf _ _
  · intro q hq
    rw [htr] at hq
    have hq' : q ∈ nestedPairs (googleKeysInit raw) model_names_to_try :=
      (probeTrace_prefixOf _ _).subset hq
    exact (googleKeysInit_mem raw q.1).mp (nestedPairs_fst_mem _ _ _ hq')

theorem c1_resolver_probe_order_witness :
    some kOne ∈ rawEx ∧ ¬kOne.isEmpty :=
  (c1_resolver_probe_order probeNone rawEx stEx rfl).2.2
    (kOne, "gemini-1.5-pro-latest".toList) (by decide)

/-- C2: the resolver stops at the first successful (credential, model) pair:
    it records that pair as the binding, probes nothing further — the trace
    is the failing prefix followed by the winning pair — and the number of
    probes equals the 1-based position of the first success in the nested
    search order. -/
theorem c2_fail_fast_on_success (probe : Str → Str → Bool) (st : PlatformState)
    (xs ys : List (Str × Str)) (q : Str × Str)
    (hsplit : nestedPairs st.google_keys model_names_to_try = xs ++ q :: ys)
    (hxs : ∀ p ∈ xs, probe p.1 p.2 = false) (hq : probe q.1 q.2 = true) :
    (setup_google_client probe st).2.1 = true
    ∧ (setup_google_client probe st).1.active_google_key = some q.1
    ∧ (setup_google_client probe st).1.active_google_model = some q.2
    ∧ (setup_google_client probe st).2.2 = xs ++ [q]
    ∧ (setup_google_client probe st).2.2.length = xs.length + 1 := by
  obtain ⟨qk, qm⟩ := q
  have hfind : (nestedPairs st.google_keys model_names_to_try).find?
      (fun p => probe p.1 p.2) = some (qk, qm) := by
    rw [hsplit, List.find?_append]
    have h1 : xs.find? (fun p => probe p.1 p.2) = none :=
      List.find?_eq_none.mpr fun x hx => by simp [hxs x hx]
    rw [h1, Option.none_or]
    simp [List.find?_cons, hq]
  have hloop := googleLoop_find probe st.google_keys model_names_to_try
  rw [hfind] at hloop
  have hset := setup_google_client_of_some probe st qk qm hloop
  have htr := setup_google_client_trace probe st
  rw [hsplit, probeTrace_append_false _ _ _ hxs] at htr
  have htail : probeTrace (fun p => probe p.1 p.2) ((qk, qm) :: ys) = [(qk, qm)] := by
    simp [probeTrace, hq]
  rw [htail] at htr
  refine ⟨?_, ?_, ?_, htr, by rw [htr]; simp⟩
  · rw [hset]
  · rw [hset]
  · rw [hset]

theorem c2_fail_fast_on_success_witness :
    (setup_google_client probeSecondModel stEx).2.1 = true
    ∧ (setup_google_client probeSecondModel stEx).1.active_google_key = some kOne
    ∧ (setup_google_client probeSecondModel stEx).1.active_google_model
        = some mPro15
    ∧ (setup_google_client probeSecondModel stEx).2.2
        = [(kOne, mLatest), (kOne, mPro15)]
    ∧ (setup_google_client probeSecondModel stEx).2.2.length = 2 :=
  c2_fail_fast_on_success probeSecondModel stEx
    [(kOne, mLatest)] [(kOne, mPro), (kOne, mPro10)] (kOne, mPro15)
    (by decide) (by decide) (by decide)

/-- C3: when every probe over every (credential, model) pair fails —
    including the degenerate case of an empty credential list — the resolver
    reports failure without mutating anything: the returned flag is false,
    the state is unchanged, and the Google provider stays unavailable (no
    registry entry, no active key, no active model).  The embedded function
    is total, mirroring the source, where every probe exception is caught by
    the `except: continue` and the exhausted loop falls through to
    `return False`. -/
theorem c3_exhaustion_no_binding (probe : Str → Str → Bool)
    (st : PlatformState)
    (hg : sGoogle ∉ st.clients)
    (hk : st.active_google_key = none) (hm : st.active_google_model = none)
    (hfail : ∀ q ∈ nestedPairs st.google_keys model_names_to_try,
      probe q.1 q.2 = false) :
    (setup_google_client probe st).2.1 = false
    ∧ (setup_google_client probe st).1 = st
    ∧ sGoogle ∉ (setup_google_client probe st).1.clients
    ∧ (setup_google_client probe st).1.active_google_key = none
    ∧ (setup_google_client probe st).1.active_google_model = none := by
  have hloop : (googleLoop probe st.google_keys model_names_to_try).1 = none := by
    rw [googleLoop_find]
    exact List.find?_eq_none.mpr fun x hx => by simp [hfail x hx]
  obtain ⟨h1, h2⟩ := setup_google_client_of_none probe st hloop
  exact ⟨h2, h1, by rw [h1]; exact hg, by rw [h1]; exact hk, by rw [h1]; exact hm⟩

/-- A text beginning with a failure-marked constant still begins with the
    failure marker after appending a diagnostic. -/
theorem marker_prefixOf_append (a b : Str)
    (h : failureMarker.isPrefixOf a = true) :
    failureMarker.isPrefixOf (a ++ b) = true := by
  rw [List.isPrefixOf_iff_prefix] at h ⊢
  exact h.trans (List.prefix_append a b)

/-- Appending a 100-character truncation stays within a fixed bound. -/
theorem truncated_append_bound (a e : Str) :
    (a ++ e.take 100).length ≤ a.length + 100 := by
  simp [List.length_append, List.length_take]

/-- C4: respond never raises (each embedded respond operation is a total
    function): when the provider is unavailable it immediately returns the
    fixed not-available text, which begins with the failure marker; and any
    runtime fault during an issued call — a raised transport exception, a
    non-200 status, an undecodable payload — is caught and returned as a
    failure-marked text whose embedded diagnostic is truncated to at most
    100 characters. -/
theorem c4_respond_uniform_failure (st : PlatformState) (lk : Option Str)
    (http : LlamaRequest → HttpOutcome) (gen : Str → CallOutcome)
    (oc : List Message → CallOutcome)
    (cc : List Message → Option Str → CallOutcome)
    (prompt : Str) (sp : Option Str) :
    (truthyOpt lk = false →
      get_llama_response lk http prompt sp = errLlamaNA
        ∧ failureMarker.isPrefixOf (get_llama_response lk http prompt sp) = true)
    ∧ (∀ key e, lk = some key → key.isEmpty = false →
        http (llamaRequestOf key prompt sp) = HttpOutcome.exn e →
        get_llama_response lk http prompt sp = errLlamaErr ++ e.take 100
          ∧ failureMarker.isPrefixOf (get_llama_response lk http prompt sp) = true
          ∧ (get_llama_response lk http prompt sp).length
              ≤ errLlamaErr.length + 100)
    ∧ (∀ key status body, lk = some key → key.isEmpty = false →
        http (llamaRequestOf key prompt sp) = HttpOutcome.resp status body →
        status ≠ 200 →
        get_llama_response lk http prompt sp
            = errLlamaAPI ++ (toString status).toList
          ∧ failureMarker.isPrefixOf (get_llama_response lk http prompt sp) = true)
    ∧ (∀ key e, lk = some key → key.isEmpty = false →
        http (llamaRequestOf key prompt sp)
            = HttpOutcome.resp 200 (Except.error e) →
        get_llama_response lk http prompt sp = errLlamaErr ++ e.take 100
          ∧ (get_llama_response lk http prompt sp).length
              ≤ errLlamaErr.length + 100)
    ∧ (sGoogle ∉ st.clients →
        get_google_response st gen prompt sp = errGoogleNA
          ∧ failureMarker.isPrefixOf (get_google_response st gen prompt sp) = true)
    ∧ (∀ e, gen (googleFullPrompt prompt sp) = CallOutcome.exn e →
        failureMarker.isPrefixOf (get_google_response st gen prompt sp) = true
          ∧ (get_google_response st gen prompt sp).length
              ≤ errGoogleErr.length + 100)
    ∧ (sOpenaiName ∉ st.clients →
        get_openai_response st oc prompt sp = errOpenaiNA
          ∧ failureMarker.isPrefixOf (get_openai_response st oc prompt sp) = true)
    ∧ (∀ e, oc (sysUserMessages prompt sp) = CallOutcome.exn e →
        failureMarker.isPrefixOf (get_openai_response st oc prompt sp) = true
          ∧ (get_openai_response st oc prompt sp).length
              ≤ errOpenaiErr.length + 100)
    ∧ (sClaudeName ∉ st.clients →
        get_claude_response st cc prompt sp = errClaudeNA
          ∧ failureMarker.isPrefixOf (get_claude_response st cc prompt sp) = true)
    ∧ (∀ e, sClaudeName ∈ st.clients →
        cc [⟨sUser, prompt⟩] (claudeSystemOf sp) = CallOutcome.exn e →
        failureMarker.isPrefixOf (get_claude_response st cc prompt sp) = true
          ∧ (get_claude_response st cc prompt sp).length
              ≤ errClaudeErr.length + 100) := by
  refine ⟨?_, ?_, ?_, ?_, ?_, ?_, ?_, ?_, ?_, ?_⟩
  · intro h
    rcases lk with _ | key
    · refine ⟨rfl, ?_⟩
      show failureMarker.isPrefixOf errLlamaNA = true
      decide
    · have hke : key.isEmpty = true := by
        simpa [truthyOpt] using h
      have heq : get_llama_response (some key) http prompt sp = errLlamaNA := by
        simp [get_llama_response, hke]
      rw [heq]
      exact ⟨rfl, by decide⟩
  · intro key e hlk hke hh
    subst hlk
    have heq : get_llama_response (some key) http prompt sp
        = errLlamaErr ++ e.take 100 := by
      simp [get_llama_response, hke, hh]
    rw [heq]
    exact ⟨rfl, marker_prefixOf_append _ _ (by decide), truncated_append_bound _ _⟩
  · intro key status body hlk hke hh hs
    subst hlk
    have heq : get_llama_response (some key) http prompt sp
        = errLlamaAPI ++ (toString status).toList := by
      simp [get_llama_response, hke, hh, hs]
    rw [heq]
    exact ⟨rfl, marker_prefixOf_append _ _ (by decide)⟩
  · intro key e hlk hke hh
    subst hlk
    have heq : get_llama_response (some key) http prompt sp
        = errLlamaErr ++ e.take 100 := by
      simp [get_llama_response, hke, hh]
    rw [heq]
    exact ⟨rfl, truncated_append_bound _ _⟩
  · intro h
    have heq : get_google_response st gen prompt sp = errGoogleNA := by
      simp [get_google_response, h]
    rw [heq]
    exact ⟨rfl, by decide⟩
  · intro e hg
    by_cases h : sGoogle ∈ st.clients
    · have heq : get_google_response st gen prompt sp
          = errGoogleErr ++ e.take 100 := by
        simp [get_google_response, h, hg]
      rw [heq]
      exact ⟨marker_prefixOf_append _ _ (by decide), truncated_append_bound _ _⟩
    · have heq : get_google_response st gen prompt sp = errGoogleNA := by
        simp [get_google_response, h]
      rw [heq]
      exact ⟨by decide, by decide⟩
  · intro h
    have heq : get_openai_response st oc prompt sp = errOpenaiNA := by
      simp [get_openai_response, h]
    rw [heq]
    exact ⟨rfl, by decide⟩
  · intro e ho
    by_cases h : sOpenaiName ∈ st.clients
    · have heq : get_openai_response st oc prompt sp
          = errOpenaiErr ++ e.take 100 := by
        simp [get_openai_response, h, ho]
      rw [heq]
      exact ⟨marker_prefixOf_append _ _ (by decide), truncated_append_bound _ _⟩
    · have heq : get_openai_response st oc prompt sp = errOpenaiNA := by
        simp [get_openai_response, h]
      rw [heq]
      exact ⟨by decide, by decide⟩
  · intro h
    have heq : get_claude_response st cc prompt sp = errClaudeNA := by
      simp [get_claude_response, h]
    rw [heq]
    exact ⟨rfl, by decide⟩
  · intro e hc hcc
    have heq : get_claude_response st cc prompt sp
        = if containsSubstr sOverloaded (e.map Char.toLower)
          then errClaudeOverloaded else errClaudeErr ++ e.take 100 := by
      simp [get_claude_response, hc, hcc]
    rw [heq]
    by_cases hov : containsSubstr sOverloaded (e.map Char.toLower) = true
    · simp only [hov, if_true]
      exact ⟨by decide, by decide⟩
    · simp only [Bool.not_eq_true] at hov
      simp only [hov, Bool.false_eq_true, if_false]
      exact ⟨marker_prefixOf_append _ _ (by decide), truncated_append_bound _ _⟩

theorem c4_respond_uniform_failure_witness :
    (get_llama_response none httpExn sP none = errLlamaNA
      ∧ failureMarker.isPrefixOf
          (get_llama_response none httpExn sP none) = true)
    ∧ (get_llama_response (some sLk) httpExn sP none
          = errLlamaErr ++ sBoom.take 100
        ∧ failureMarker.isPrefixOf
            (get_llama_response (some sLk) httpExn sP none) = true
        ∧ (get_llama_response (some sLk) httpExn sP none).length
              ≤ errLlamaErr.length + 100) :=
  ⟨(c4_respond_uniform_failure stEx none httpExn genOk ocOk ccOk sP none).1
      (by decide),
   (c4_respond_uniform_failure stEx (some sLk) httpExn genOk ocOk ccOk
      sP none).2.1 sLk sBoom rfl (by decide) rfl⟩

theorem c3_exhaustion_no_binding_witness :
    (setup_google_client probeNone stEx).2.1 = false
    ∧ (setup_google_client probeNone stEx).1 = stEx
    ∧ sGoogle ∉ (setup_google_client probeNone stEx).1.clients
    ∧ (setup_google_client probeNone stEx).1.active_google_key = none
    ∧ (setup_google_client probeNone stEx).1.active_google_model = none :=
  c3_exhaustion_no_binding probeNone stEx (by decide) rfl rfl (by decide)

/-- C5: on a 200 reply whose first choice carries a `message` field, the
    extracted text is the message content — the message shape wins even when
    a flat `text` field is also present; with no `message` but a `text`
    field, that field is extracted; with neither, the failure-marked
    unexpected-format text is returned; and equivalent payloads in the two
    shapes extract to the same text. -/
theorem c5_shape_tolerance (key : Str) (hkey : key.isEmpty = false)
    (prompt : Str) (sp : Option Str) (c : LlamaChoice)
    (rest : List LlamaChoice) (s : Str) :
    (c.message = some ⟨some s⟩ →
      get_llama_response (some key) (httpOk ⟨some (c :: rest)⟩) prompt sp = s)
    ∧ (c.message = none → c.text = some s →
      get_llama_response (some key) (httpOk ⟨some (c :: rest)⟩) prompt sp = s)
    ∧ (c.message = none → c.text = none →
      get_llama_response (some key) (httpOk ⟨some (c :: rest)⟩) prompt sp
          = errLlamaFormat
        ∧ failureMarker.isPrefixOf
            (get_llama_response (some key) (httpOk ⟨some (c :: rest)⟩) prompt sp)
              = true)
    ∧ (∀ t, get_llama_response (some key)
          (httpOk ⟨some (⟨some ⟨some s⟩, t⟩ :: rest)⟩) prompt sp
        = get_llama_response (some key)
            (httpOk ⟨some (⟨none, some s⟩ :: rest)⟩) prompt sp) := by
  refine ⟨?_, ?_, ?_, ?_⟩
  · intro hm
    simp [get_llama_response, httpOk, parseLlamaBody, hkey, hm]
  · intro hm ht
    simp [get_llama_response, httpOk, parseLlamaBody, hkey, hm, ht]
  · intro hm ht
    constructor
    · simp [get_llama_response, httpOk, parseLlamaBody, hkey, hm, ht]
    · have heq : get_llama_response (some key) (httpOk ⟨some (c :: rest)⟩)
          prompt sp = errLlamaFormat := by
        simp [get_llama_response, httpOk, parseLlamaBody, hkey, hm, ht]
      rw [heq]
      decide
  · intro t
    simp [get_llama_response, httpOk, parseLlamaBody, hkey]

theorem c5_shape_tolerance_witness :
    get_llama_response (some sLk) (httpOk llamaBodyHi) sP none = sHi
    ∧ get_llama_response (some sLk)
        (httpOk ⟨some [⟨some ⟨some sHi⟩, none⟩]⟩) sP none
      = get_llama_response (some sLk)
          (httpOk ⟨some [⟨none, some sHi⟩]⟩) sP none :=
  ⟨(c5_shape_tolerance sLk (by decide) sP none ⟨some ⟨some sHi⟩, none⟩ []
      sHi).1 rfl,
   (c5_shape_tolerance sLk (by decide) sP none ⟨some ⟨some sHi⟩, none⟩ []
      sHi).2.2.2 none⟩

/-- C10: a 200 reply whose decoded body lacks a `choices` key or holds an
    empty `choices` list yields the failure-marked unexpected-format text:
    the `choices[0]` access sits under the guard that `choices` is present
    and non-empty, so no out-of-bounds access is modelled (the embedding
    reaches the first choice only through the non-empty list pattern). -/
theorem c10_choices_guard (key : Str) (hkey : key.isEmpty = false)
    (prompt : Str) (sp : Option Str) (body : LlamaBody)
    (h : body.choices = none ∨ body.choices = some []) :
    get_llama_response (some key) (httpOk body) prompt sp = errLlamaFormat := by
  rcases h with h | h <;>
    simp [get_llama_response, httpOk, parseLlamaBody, hkey, h]

theorem c10_choices_guard_witness :
    get_llama_response (some sLk) (httpOk ⟨none⟩) sP none = errLlamaFormat
    ∧ get_llama_response (some sLk) (httpOk ⟨some []⟩) sP none
        = errLlamaFormat :=
  ⟨c10_choices_guard sLk (by decide) sP none ⟨none⟩ (Or.inl rfl),
   c10_choices_guard sLk (by decide) sP none ⟨some []⟩ (Or.inr rfl)⟩

/-- C9 counterexample: the claim says a supplied system instruction is
    always concatenated in front of the prompt, but `if system_prompt:` is
    false for a supplied empty instruction, so the prompt is sent unchanged:
    with instruction `""` and prompt `"p"`, the text handed to the model (as
    exposed by an echoing generation oracle) is `"p"`, not the
    instruction-prefixed concatenation. -/
theorem c9_counterexample :
    googleFullPrompt sP (some []) = sP
    ∧ get_google_response stGoogleOnly genEcho sP (some []) = sP
    ∧ sP ≠ sInstructions ++ [] ++ sUserDelim ++ sP := by
  refine ⟨by decide, by decide, by decide⟩

/-- C9 (amended): when the supplied system instruction is non-empty it is
    concatenated in front of the prompt with the Instructions/User
    delimiters to form the single text sent, and when the instruction is
    absent — or supplied but empty, which Python truthiness treats as absent
    — the prompt is sent unchanged. -/
theorem c9_system_prompt_concat (st : PlatformState) (gen : Str → CallOutcome)
    (prompt sp : Str) :
    googleFullPrompt prompt none = prompt
    ∧ googleFullPrompt prompt (some []) = prompt
    ∧ (sp.isEmpty = false →
        googleFullPrompt prompt (some sp)
          = sInstructions ++ sp ++ sUserDelim ++ prompt)
    ∧ (∀ spo, sGoogle ∈ st.clients →
        get_google_response st gen prompt spo
          = match gen (googleFullPrompt prompt spo) with
            | CallOutcome.ok t => t
            | CallOutcome.exn e => errGoogleErr ++ e.take 100) := by
  refine ⟨rfl, by simp [googleFullPrompt], ?_, ?_⟩
  · intro h
    simp [googleFullPrompt, h]
  · intro spo h
    simp [get_google_response, h]

theorem c9_system_prompt_concat_witness :
    googleFullPrompt sP (some sHi) = sInstructions ++ sHi ++ sUserDelim ++ sP
    ∧ get_google_response stGoogleOnly genEcho sP (some sHi)
        = match genEcho (googleFullPrompt sP (some sHi)) with
          | CallOutcome.ok t => t
          | CallOutcome.exn e => errGoogleErr ++ e.take 100 :=
  ⟨(c9_system_prompt_concat stGoogleOnly genEcho sP sHi).2.2.1 (by decide),
   (c9_system_prompt_concat stGoogleOnly genEcho sP sHi).2.2.2 (some sHi)
     (by decide)⟩

/-- A falsy Llama key (absent or empty) makes `get_llama_response` return
    the not-available text at once, without consulting the HTTP oracle. -/
theorem llama_unavailable_eq (lk : Option Str)
    (http : LlamaRequest → HttpOutcome) (prompt : Str) (sp : Option Str)
    (h : truthyOpt lk = false) :
    get_llama_response lk http prompt sp = errLlamaNA := by
  rcases lk with _ | key
  · rfl
  · have hke : key.isEmpty = true := by simpa [truthyOpt] using h
    simp [get_llama_response, hke]

/-- C6 counterexample: the claim says the comparison mapping contains
    exactly the available providers' labels, the unavailable ones being
    skipped; but on a platform where Google is unavailable the runner still
    invokes its respond and the returned mapping carries all four labels,
    including the Google one bound to the not-available text. -/
theorem c6_counterexample :
    sGoogle ∉ stNoGoogle.clients
    ∧ (compare_all_models_enhanced stNoGoogle ocOk ccOk genOk
        (httpOk llamaBodyHi) sP none).map Prod.fst
        = [labelOpenai, labelClaude, labelGoogle, labelLlama]
    ∧ (labelGoogle, errGoogleNA)
        ∈ compare_all_models_enhanced stNoGoogle ocOk ccOk genOk
            (httpOk llamaBodyHi) sP none := by
  refine ⟨by decide, by decide, by decide⟩

/-- C6 (amended): the comparison runner invokes the four respond operations
    unconditionally — availability is checked inside each of them, not by
    the runner — sequentially in the fixed display order; the returned
    mapping carries exactly the four fixed labels, each bound to the
    corresponding respond result, with every unavailable provider bound to
    its failure-marked not-available text; no provider's failure prevents
    the entries of the subsequent providers. -/
theorem c6_comparison_mapping (st : PlatformState)
    (oc : List Message → CallOutcome)
    (cc : List Message → Option Str → CallOutcome)
    (gc : Str → CallOutcome) (lc : LlamaRequest → HttpOutcome)
    (prompt : Str) (sp : Option Str) :
    (compare_all_models_enhanced st oc cc gc lc prompt sp).map Prod.fst
      = [labelOpenai, labelClaude, labelGoogle, labelLlama]
    ∧ compare_all_models_enhanced st oc cc gc lc prompt sp
      = [(labelOpenai, get_openai_response st oc prompt sp),
         (labelClaude, get_claude_response st cc prompt sp),
         (labelGoogle, get_google_response st gc prompt sp),
         (labelLlama, get_llama_response st.llama_key lc prompt sp)]
    ∧ (sGoogle ∉ st.clients → (labelGoogle, errGoogleNA)
        ∈ compare_all_models_enhanced st oc cc gc lc prompt sp)
    ∧ (truthyOpt st.llama_key = false → (labelLlama, errLlamaNA)
        ∈ compare_all_models_enhanced st oc cc gc lc prompt sp)
    ∧ (sOpenaiName ∉ st.clients → (labelOpenai, errOpenaiNA)
        ∈ compare_all_models_enhanced st oc cc gc lc prompt sp)
    ∧ (sClaudeName ∉ st.clients → (labelClaude, errClaudeNA)
        ∈ compare_all_models_enhanced st oc cc gc lc prompt sp) := by
  refine ⟨rfl, rfl, ?_, ?_, ?_, ?_⟩
  · intro h
    have heq : get_google_response st gc prompt sp = errGoogleNA := by
      simp [get_google_response, h]
    simp [compare_all_models_enhanced, heq]
  · intro h
    have heq := llama_unavailable_eq st.llama_key lc prompt sp h
    simp [compare_all_models_enhanced, heq]
  · intro h
    have heq : get_openai_response st oc prompt sp = errOpenaiNA := by
      simp [get_openai_response, h]
    simp [compare_all_models_enhanced, heq]
  · intro h
    have heq : get_claude_response st cc prompt sp = errClaudeNA := by
      simp [get_claude_response, h]
    simp [compare_all_models_enhanced, heq]

theorem c6_comparison_mapping_witness :
    (compare_all_models_enhanced stNoGoogle ocOk ccOk genOk
        (httpOk llamaBodyHi) sP none).map Prod.fst
      = [labelOpenai, labelClaude, labelGoogle, labelLlama]
    ∧ (labelGoogle, errGoogleNA)
        ∈ compare_all_models_enhanced stNoGoogle ocOk ccOk genOk
            (httpOk llamaBodyHi) sP none :=
  ⟨(c6_comparison_mapping stNoGoogle ocOk ccOk genOk
      (httpOk llamaBodyHi) sP none).1,
   (c6_comparison_mapping stNoGoogle ocOk ccOk genOk
      (httpOk llamaBodyHi) sP none).2.2.1 (by decide)⟩

/-- C7 counterexample: the credential list handed to the resolver is NOT
    deduplicated and the known placeholder value is NOT removed: with the
    same key in two slots the filtered list holds it twice, is not nodup,
    and under an all-failing probe the pair (key, first model) is probed
    twice; a placeholder-valued slot survives the filter. -/
theorem c7_counterexample :
    googleKeysInit rawDup = [kAbc, kAbc]
    ∧ ¬(googleKeysInit rawDup).Nodup
    ∧ (googleLoop probeNone (googleKeysInit rawDup)
        model_names_to_try).2.count (kAbc, mLatest) = 2
    ∧ googleKeysInit [some placeholderKey] = [placeholderKey] := by
  refine ⟨by decide, by decide, by decide, by decide⟩

/-- C7 (amended): the Google credential list handed to the resolver removes
    exactly the empty and absent entries, preserving the original relative
    order (it is a sublist of the present entries); it is not deduplicated —
    each occurrence of a non-empty credential is kept with its multiplicity,
    so a repeated credential is probed once per occurrence — and the
    placeholder value is not filtered here. -/
theorem c7_credential_filter (raw : List (Option Str)) :
    (googleKeysInit raw).Sublist raw.reduceOption
    ∧ (∀ s, s ∈ googleKeysInit raw ↔ some s ∈ raw ∧ ¬s.isEmpty)
    ∧ ∀ s, s.isEmpty = false →
        (googleKeysInit raw).count s = raw.count (some s) := by
  refine ⟨?_, fun s => googleKeysInit_mem raw s, ?_⟩
  · induction raw with
    | nil => simp [googleKeysInit]
    | cons o rest ih =>
      cases o with
      | none => simpa [googleKeysInit, List.reduceOption] using ih
      | some t =>
        by_cases ht : t.isEmpty
        · rw [googleKeysInit, if_pos ht]
          simpa [List.reduceOption] using ih.cons t
        · rw [googleKeysInit, if_neg ht]
          simpa [List.reduceOption] using ih.cons₂ t
  · intro s hs
    induction raw with
    | nil => simp [googleKeysInit]
    | cons o rest ih =>
      cases o with
      | none =>
        rw [googleKeysInit]
        rw [List.count_cons]
        simp [ih]
      | some t =>
        by_cases ht : t.isEmpty
        · rw [googleKeysInit, if_pos ht, List.count_cons, ih]
          have hne : (some t == some s) = false := by
            have : t ≠ s := fun h => by
              rw [h] at ht
              rw [ht] at hs
              exact absurd hs (by simp)
            simp [this]
          simp [hne]
        · rw [googleKeysInit, if_neg ht, List.count_cons, List.count_cons, ih]
          have : (some t == some s) = (t == s) := by
            by_cases h : t = s <;> simp [h]
          rw [this]

theorem c7_credential_filter_witness :
    (googleKeysInit rawDup).Sublist rawDup.reduceOption
    ∧ (kAbc ∈ googleKeysInit rawDup ↔ some kAbc ∈ rawDup ∧ ¬kAbc.isEmpty)
    ∧ (googleKeysInit rawDup).count kAbc = rawDup.count (some kAbc) :=
  ⟨(c7_credential_filter rawDup).1,
   (c7_credential_filter rawDup).2.1 kAbc,
   (c7_credential_filter rawDup).2.2 kAbc (by decide)⟩

/-- The OpenAI setup step touches none of the Google fields and can only add
    the OpenAI registry entry. -/
theorem setup_openai_client_preserves (b : Bool) (st : PlatformState) :
    (setup_openai_client b st).1.active_google_key = st.active_google_key
    ∧ (setup_openai_client b st).1.active_google_model = st.active_google_model
    ∧ (sGoogle ∉ st.clients → sGoogle ∉ (setup_openai_client b st).1.clients) := by
  rcases h : st.openai_key with _ | k
  · simp [setup_openai_client, h]
  · unfold setup_openai_client
    rw [h]
    by_cases h1 : (k.isEmpty || decide (k = placeholderKey)) = true
    · simp [h1]
    · rw [Bool.not_eq_true] at h1
      simp only [h1, Bool.false_eq_true, if_false]
      cases b with
      | false => exact ⟨rfl, rfl, fun hg => hg⟩
      | true =>
        refine ⟨rfl, rfl, fun hg hmem => ?_⟩
        rcases List.mem_append.mp hmem with hmem | hmem
        · exact hg hmem
        · revert hmem
          decide

/-- The Claude setup step touches none of the Google fields and can only add
    the Claude registry entry. -/
theorem setup_claude_client_preserves (b : Bool) (st : PlatformState) :
    (setup_claude_client b st).1.active_google_key = st.active_google_key
    ∧ (setup_claude_client b st).1.active_google_model = st.active_google_model
    ∧ (sGoogle ∉ st.clients → sGoogle ∉ (setup_claude_client b st).1.clients) := by
  rcases h : st.claude_key with _ | k
  · simp [setup_claude_client, h]
  · unfold setup_claude_client
    rw [h]
    by_cases h1 : k.isEmpty = true
    · simp [h1]
    · rw [Bool.not_eq_true] at h1
      simp only [h1, Bool.false_eq_true, if_false]
      cases b with
      | false => exact ⟨rfl, rfl, fun hg => hg⟩
      | true =>
        refine ⟨rfl, rfl, fun hg hmem => ?_⟩
        rcases List.mem_append.mp hmem with hmem | hmem
        · exact hg hmem
        · revert hmem
          decide

/-- After the Google setup step runs on a state with no prior binding and no
    Google registry entry, the registry entry exists iff the binding fields
    are both set. -/
theorem setup_google_client_invariant (probe : Str → Str → Bool)
    (st : PlatformState) (hg : sGoogle ∉ st.clients)
    (hk : st.active_google_key = none) (hm : st.active_google_model = none) :
    sGoogle ∈ (setup_google_client probe st).1.clients
      ↔ (setup_google_client probe st).1.active_google_key.isSome
        ∧ (setup_google_client probe st).1.active_google_model.isSome := by
  rcases hl : (googleLoop probe st.google_keys model_names_to_try).1 with _ | km
  · obtain ⟨h1, _⟩ := setup_google_client_of_none probe st hl
    rw [h1, hk, hm]
    simp [hg]
  · obtain ⟨k, m⟩ := km
    rw [setup_google_client_of_some probe st k m hl]
    simp

/-- No post-startup operation changes the platform state: the respond
    methods and the comparison runner assign to no field. -/
theorem runOp_fst (st : PlatformState) (o : Op) : (runOp st o).1 = st := by
  cases o <;> rfl

theorem runOps_eq (st : PlatformState) (ops : List Op) : runOps st ops = st := by
  induction ops with
  | nil => rfl
  | cons o os ih =>
    rw [runOps, runOp_fst]
    exact ih

/-- C8: after startup the Google availability invariant holds — the registry
    entry `'google'` is present iff the resolved binding exists (active key
    and active model both set; the binding is assigned at the single success
    point of the resolver and never re-assigned) — and every subsequent
    respond or comparison operation leaves the registry and the binding
    untouched, so the invariant is preserved for the rest of the run. -/
theorem c8_availability_invariant (env : Env) (oo co : Bool)
    (probe : Str → Str → Bool) (ops : List Op) :
    (sGoogle ∈ (platformInit env oo co probe).clients
      ↔ (platformInit env oo co probe).active_google_key.isSome
        ∧ (platformInit env oo co probe).active_google_model.isSome)
    ∧ runOps (platformInit env oo co probe) ops = platformInit env oo co probe := by
  refine ⟨?_, runOps_eq _ _⟩
  unfold platformInit setup_all_clients
  have h0g : sGoogle ∉ (initState env).clients := by
    simp [initState]
  have h0k : (initState env).active_google_key = none := rfl
  have h0m : (initState env).active_google_model = none := rfl
  obtain ⟨h1k, h1m, h1g⟩ := setup_openai_client_preserves oo (initState env)
  obtain ⟨h2k, h2m, h2g⟩ :=
    setup_claude_client_preserves co (setup_openai_client oo (initState env)).1
  exact setup_google_client_invariant probe _
    (h2g (h1g h0g)) (h2k.trans (h1k.trans h0k)) (h2m.trans (h1m.trans h0m))

theorem c8_availability_invariant_witness :
    (sGoogle ∈ (platformInit envEx true true probeNone).clients
      ↔ (platformInit envEx true true probeNone).active_google_key.isSome
        ∧ (platformInit envEx true true probeNone).active_google_model.isSome)
    ∧ runOps (platformInit envEx true true probeNone)
        [Op.googleR genOk sP none, Op.compareR ocOk ccOk genOk httpExn sP none]
      = platformInit envEx true true probeNone :=
  c8_availability_invariant envEx true true probeNone
    [Op.googleR genOk sP none, Op.compareR ocOk ccOk genOk httpExn sP none]

end MultiModel
